import Mathlib

/-!
Verification development for the `ibus` status-bar block
(`src/blocks/ibus.rs`): bus-address discovery, the signal filter,
the listener loop, and the block lifecycle (`new` / `update` / `view` /
`click`), shallowly embedded as pure Lean functions.
-/

namespace Ibus

/-- Error taxonomy of the design (spec section 7), mapped onto the failure
sites of the code: each `block_error` call site in `ibus.rs` falls into
exactly one of these kinds. -/
inductive Err where
  | MissingEnv
  | IoError
  | MalformedInput
  | ConnectionError
  | QueryError
  | LockError
  deriving DecidableEq, Repr

/-- The ambient process environment: the two environment variables the
block reads (`XDG_CONFIG_HOME` and `DISPLAY`); `none` models an unset
variable (`env::var` returning `Err`). -/
structure Env where
  xdg_config_home : Option String
  display : Option String

/-- The filesystem as a map from path to readable text content; `none`
models a file that cannot be opened or read. -/
def Fs : Type := String → Option String

/-- Model of `str::trim` on the character list: drop leading and trailing
whitespace. -/
def trimChars (l : List Char) : List Char :=
  (((l.dropWhile Char.isWhitespace).reverse).dropWhile Char.isWhitespace).reverse

/-- Model of `str::trim` as used on the machine-id contents: remove surrounding
whitespace. -/
def trimStr (s : String) : String := String.mk (trimChars s.data)

/-- The literal key of the discovery-file pattern `IBUS_ADDRESS=(.*),guid`. -/
def keyChars : List Char := "IBUS_ADDRESS=".data

/-- The literal tail of the discovery-file pattern `IBUS_ADDRESS=(.*),guid`. -/
def guidChars : List Char := ",guid".data

/-- Predicate `subAt pat l i` holds when `pat` occurs in `l` starting at index `i`. -/
def subAt (pat l : List Char) (i : Nat) : Bool :=
  pat.isPrefixOf (l.drop i)

/-- One line of the discovery file matched against `IBUS_ADDRESS=(.*),guid`
with the Rust regex crate's leftmost-first semantics: the match starts at
the leftmost index where the literal key occurs with `,guid` somewhere
after it on the same line, and the greedy `(.*)` capture extends to the
last `,guid` occurrence at or after the end of the key. `.` does not cross
a newline, so matching is per line. -/
def lineCapture (line : List Char) : Option (List Char) :=
  match (List.range (line.length + 1)).find? (fun i =>
      subAt keyChars line i &&
      (List.range (line.length + 1)).any (fun j =>
        decide (i + keyChars.length ≤ j) && subAt guidChars line j)) with
  | none => none
  | some i =>
    match (List.range (line.length + 1)).reverse.find? (fun j =>
        decide (i + keyChars.length ≤ j) && subAt guidChars line j) with
    | none => none
    | some j => some ((line.drop (i + keyChars.length)).take (j - (i + keyChars.length)))

/-- Split a character list at newline characters (the line structure the
regex `.` respects). -/
def splitOnNl : List Char → List (List Char)
  | [] => [[]]
  | c :: rest =>
    match splitOnNl rest with
    | [] => [[c]]
    | h :: t => if c = '\n' then [] :: h :: t else (c :: h) :: t

/-- Model of `Regex::captures` of `IBUS_ADDRESS=(.*),guid` over the whole file
contents: the first line containing a match yields its capture group. -/
def addressCapture (s : String) : Option String :=
  ((splitOnNl s.data).findSome? lineCapture).map fun l => String.mk l

/-- Model of `Regex::captures` of `^:(\d{1})$` over `$DISPLAY`: the anchored pattern
matches exactly a colon followed by a single digit, capturing the digit.
(The Rust `\d` class is modelled as a decimal digit.) -/
def displayCapture (s : String) : Option String :=
  match s.data with
  | [a, c] => if a == ':' && c.isDigit then some (String.mk [c]) else none
  | _ => none

/-- Function `get_ibus_address` from `ibus.rs`: read `$XDG_CONFIG_HOME`, read and
trim `/etc/machine-id`, extract the display digit from `$DISPLAY`, build
the discovery-file path with the constant hostname `"unix"`, read that
file, and extract the address via the `IBUS_ADDRESS=(.*),guid` pattern. -/
def get_ibus_address (env : Env) (fs : Fs) : Except Err String :=
  match env.xdg_config_home with
  | none => .error .MissingEnv
  | some config_dir =>
  match fs "/etc/machine-id" with
  | none => .error .IoError
  | some machine_raw =>
  let machine_id := trimStr machine_raw
  match env.display with
  | none => .error .MissingEnv
  | some display_var =>
  match displayCapture display_var with
  | none => .error .MalformedInput
  | some display_number =>
  let hostname := "unix"
  let ibus_socket_path :=
    config_dir ++ "/ibus/bus/" ++ machine_id ++ "-" ++ hostname ++ "-" ++ display_number
  match fs ibus_socket_path with
  | none => .error .IoError
  | some contents =>
  match addressCapture contents with
  | none => .error .MalformedInput
  | some ibus_address => .ok ibus_address

/-- A positional argument of a bus message; `get1::<&str>` succeeds only
on a string-typed argument. -/
inductive DbusArg where
  | str (s : String)
  | other
  deriving DecidableEq, Repr

/-- A bus message as the signal filter sees it: interface, member, and
positional arguments. -/
structure DbusMessage where
  interface : String
  member : String
  args : List DbusArg
  deriving DecidableEq, Repr

/-- An item delivered by `Connection::iter`: the four constructors of the
dbus crate's `ConnectionItem`. -/
inductive ConnectionItem where
  | nothing
  | methodCall (m : DbusMessage)
  | methodReturn (m : DbusMessage)
  | signal (m : DbusMessage)
  deriving DecidableEq, Repr

/-- Model of `Message::get1::<&str>`: the first positional argument, when it is a
string. -/
def get1 (m : DbusMessage) : Option String :=
  match m.args with
  | .str s :: _ => some s
  | _ => none

/-- Function `parse_msg` from `ibus.rs`: accept only signals whose interface is
`org.freedesktop.IBus` and whose member is `GlobalEngineChanged`, and
extract the first positional string argument. -/
def parse_msg (ci : ConnectionItem) : Option String :=
  match ci with
  | .signal m =>
    if m.interface ≠ "org.freedesktop.IBus" then none
    else if m.member ≠ "GlobalEngineChanged" then none
    else get1 m
  | _ => none

/-- The `Task` pushed to the scheduler channel: block id plus a timestamp. -/
structure ChangeEvent where
  id : String
  update_time : Nat
  deriving DecidableEq, Repr

/-- The state the listener thread touches: the shared engine slot and the
sequence of scheduler notifications sent so far. -/
structure ListenerState where
  engine : String
  sent : List ChangeEvent
  deriving DecidableEq, Repr

/-- The body of the listener loop in `IBus::new` for one connection item:
when `parse_msg` matches, overwrite the engine slot with the payload and
then push a `ChangeEvent` for this block; otherwise do nothing. -/
def listenerStep (id : String) (now : Nat) (st : ListenerState) (ci : ConnectionItem) : ListenerState :=
  match parse_msg ci with
  | some engine_name => { engine := engine_name, sent := st.sent ++ [⟨id, now⟩] }
  | none => st

/-- The listener loop processing a sequence of connection items in
arrival order. -/
def runListener (id : String) (st : ListenerState) (items : List ConnectionItem) : ListenerState :=
  items.foldl (listenerStep id 0) st

/-- An observable effect of the listener loop body, in program order:
writing the engine slot, or pushing a notification to the scheduler. -/
inductive Action where
  | write (e : String)
  | notify (id : String)
  deriving DecidableEq, Repr

/-- The effect trace of one loop iteration: on a match the code first
writes the slot (under the mutex) and then sends the task, so the trace
is `[write, notify]`; otherwise it is empty. -/
def stepTrace (id : String) (ci : ConnectionItem) : List Action :=
  match parse_msg ci with
  | some e => [.write e, .notify id]
  | none => []

/-- The effect trace of the listener over a sequence of connection items. -/
def runTrace (id : String) (items : List ConnectionItem) : List Action :=
  (items.map (stepTrace id)).flatten

/-- The `RefArg` value returned by the `GlobalEngine` property query:
a string, an iterable container (array or struct), or anything else. -/
inductive RefArg where
  | str (s : String)
  | container (elems : List RefArg)
  | other

/-- Model of `RefArg::as_iter`: succeeds exactly on container values. -/
def as_iter (v : RefArg) : Option (List RefArg) :=
  match v with
  | .container es => some es
  | _ => none

/-- Model of `RefArg::as_str`: succeeds exactly on string values. -/
def as_str (v : RefArg) : Option String :=
  match v with
  | .str s => some s
  | _ => none

/-- The `IBus` block: its id, the text widget's current text, and the
engine slot shared with the listener thread. -/
structure IBus where
  id : String
  text : String
  engine : String
  deriving DecidableEq, Repr

/-- The external world `IBus::new` interacts with: the environment and
filesystem for address discovery, whether `Connection::open_private`
succeeds for a given address, and the result of the `GlobalEngine`
property query (`none` models a failed query). -/
structure ConstructEnv where
  env : Env
  fs : Fs
  connect_ok : String → Bool
  global_engine : Option RefArg

/-- Constructor `IBus::new` up to spawning the listener: resolve the bus address,
open a connection, query the `GlobalEngine` property, take the third
positional element of the iterable result, coerce it to a string with
`"??"` as the fallback, and build the block with the widget text `"IBus"`
and the engine slot seeded with the coerced value. Every failure before
that point aborts construction with the corresponding error. -/
def ibus_new (uuid : String) (ce : ConstructEnv) : Except Err IBus :=
  match get_ibus_address ce.env ce.fs with
  | .error e => .error e
  | .ok ibus_address =>
  if ce.connect_ok ibus_address = false then .error .ConnectionError
  else match ce.global_engine with
  | none => .error .QueryError
  | some info =>
  match as_iter info with
  | none => .error .QueryError
  | some elems =>
  match elems[2]? with
  | none => .error .QueryError
  | some third =>
  let current_engine := (as_str third).getD "??"
  .ok { id := uuid, text := "IBus", engine := current_engine }

/-- Method `IBus::update`: snapshot the engine slot under the mutex and set the
widget text to it, returning no re-poll delay; `lock_ok` models whether
the mutex lock succeeds, and on failure the block is left unchanged. -/
def update (lock_ok : Bool) (b : IBus) : Except Err (Option Nat) × IBus :=
  if lock_ok then (.ok none, { b with text := b.engine })
  else (.error .LockError, b)

/-- Method `IBus::view`: the block's widgets, read-only. -/
def view (b : IBus) : List String := [b.text]

/-- A click event forwarded by the bar (`I3BarEvent`); its contents are
ignored by this block. -/
structure I3BarEvent where
  name : Option String
  deriving DecidableEq, Repr

/-- Method `IBus::click`: accepted and intentionally a no-op. -/
def click (b : IBus) (_ev : I3BarEvent) : Except Err Unit × IBus :=
  (.ok (), b)

/-- A `GlobalEngineChanged` signal on the `org.freedesktop.IBus` interface
carrying the engine name `e` as its first positional argument. -/
def mkEngineSignal (e : String) : ConnectionItem :=
  .signal { interface := "org.freedesktop.IBus", member := "GlobalEngineChanged",
            args := [.str e] }

/-- Concrete environment fixture: both variables set, display `:0`. -/
def envExample : Env :=
  { xdg_config_home := some "/home/user/.config", display := some ":0" }

/-- Concrete filesystem fixture: a machine id and a discovery file holding
the address `unix:abstract=/tmp/x`. -/
def fsExample : Fs := fun p =>
  if p = "/etc/machine-id" then some "8cd241b9ab1d4c2029489cd2cbc4962a\n"
  else if p = "/home/user/.config/ibus/bus/8cd241b9ab1d4c2029489cd2cbc4962a-unix-0" then
    some "IBUS_ADDRESS=unix:abstract=/tmp/x,guid=abc"
  else none

/-- Concrete construction fixture: discovery succeeds, the connection
opens, and the `GlobalEngine` query returns a descriptor whose third
element is the engine name string. -/
def ceExample : ConstructEnv :=
  { env := envExample, fs := fsExample, connect_ok := fun _ => true,
    global_engine :=
      some (.container [.str "IBusEngineDesc", .container [], .str "xkb:us::eng"]) }

/-- Concrete construction fixture whose descriptor's third element is not
a string, so the coercion falls back to the sentinel. -/
def ceSentinel : ConstructEnv :=
  { env := envExample, fs := fsExample, connect_ok := fun _ => true,
    global_engine :=
      some (.container [.str "IBusEngineDesc", .container [], .container []]) }

/-! ## Helper lemmas -/

lemma isPrefixOf_append_self (l t : List Char) : l.isPrefixOf (l ++ t) = true :=
  List.isPrefixOf_iff_prefix.mpr (List.prefix_append l t)

lemma find?_eq_some_of_unique {p : Nat → Bool} {l : List Nat} {j : Nat}
    (hmem : j ∈ l) (hj : p j = true) (huniq : ∀ k ∈ l, p k = true → k = j) :
    l.find? p = some j := by
  induction l with
  | nil => cases hmem
  | cons a t ih =>
    by_cases ha : p a = true
    · have haj : a = j := huniq a (List.mem_cons_self a t) ha
      subst haj
      exact List.find?_cons_of_pos t ha
    · rw [List.find?_cons_of_neg t ha]
      apply ih
      · rcases List.mem_cons.mp hmem with h | h
        · exact absurd (h ▸ hj) ha
        · exact h
      · intro k hk hpk
        exact huniq k (List.mem_cons_of_mem a hk) hpk

lemma parse_msg_mkEngineSignal (e : String) : parse_msg (mkEngineSignal e) = some e := rfl

lemma path_norm (a b c : String) :
    a ++ "/ibus/bus/" ++ b ++ "-" ++ "unix" ++ "-" ++ c =
      a ++ "/ibus/bus/" ++ b ++ "-unix-" ++ c := by
  have h : ∀ s : String, s ++ "-" ++ "unix" ++ "-" = s ++ "-unix-" := by
    intro s
    rw [String.append_assoc, String.append_assoc]
    congr 1
  rw [h]

lemma find?_range_zero {p : Nat → Bool} {n : Nat} (h : p 0 = true) :
    (List.range (n + 1)).find? p = some 0 := by
  rw [List.range_succ_eq_map]
  exact List.find?_cons_of_pos _ h

lemma lineCapture_eq (addr rest : List Char)
    (huniq : ∀ j, j < (keyChars ++ addr ++ guidChars ++ rest).length + 1 →
      subAt guidChars (keyChars ++ addr ++ guidChars ++ rest) j = true →
      j = keyChars.length + addr.length) :
    lineCapture (keyChars ++ addr ++ guidChars ++ rest) = some addr := by
  set L := keyChars ++ addr ++ guidChars ++ rest with hL
  have hjlt : keyChars.length + addr.length < L.length + 1 := by
    simp only [hL, List.length_append]
    omega
  have hdropj : L.drop (keyChars.length + addr.length) = guidChars ++ rest := by
    have h2 : L = (keyChars ++ addr) ++ (guidChars ++ rest) := by
      simp [hL, List.append_assoc]
    rw [h2, ← List.length_append]
    exact List.drop_left _ _
  have hguidstar : subAt guidChars L (keyChars.length + addr.length) = true := by
    rw [subAt, hdropj]
    exact isPrefixOf_append_self _ _
  have hkey0 : subAt keyChars L 0 = true := by
    rw [subAt, List.drop_zero, hL, List.append_assoc, List.append_assoc]
    exact isPrefixOf_append_self _ _
  have hp0 : (subAt keyChars L 0 &&
      (List.range (L.length + 1)).any (fun j =>
        decide (0 + keyChars.length ≤ j) && subAt guidChars L j)) = true := by
    rw [hkey0, Bool.true_and]
    apply List.any_eq_true.mpr
    refine ⟨keyChars.length + addr.length, List.mem_range.mpr hjlt, ?_⟩
    rw [Bool.and_eq_true]
    exact ⟨by simp only [decide_eq_true_eq]; omega, hguidstar⟩
  have hfind1 : (List.range (L.length + 1)).find? (fun i =>
      subAt keyChars L i &&
      (List.range (L.length + 1)).any (fun j =>
        decide (i + keyChars.length ≤ j) && subAt guidChars L j)) = some 0 :=
    find?_range_zero hp0
  have hfind2 : ((List.range (L.length + 1)).reverse).find? (fun j =>
      decide (keyChars.length ≤ j) && subAt guidChars L j) =
        some (keyChars.length + addr.length) := by
    apply find?_eq_some_of_unique
    · rw [List.mem_reverse]
      exact List.mem_range.mpr hjlt
    · rw [Bool.and_eq_true]
      exact ⟨by simp only [decide_eq_true_eq]; omega, hguidstar⟩
    · intro k hk hpk
      rw [Bool.and_eq_true] at hpk
      exact huniq k (List.mem_range.mp (List.mem_reverse.mp hk)) hpk.2
  have hdropK : L.drop keyChars.length = addr ++ (guidChars ++ rest) := by
    rw [hL, List.append_assoc, List.append_assoc]
    exact List.drop_left _ _
  unfold lineCapture
  simp only [hfind1, Nat.zero_add, hdropK]
  simp only [hfind2]
  simp only [Nat.add_sub_cancel_left]
  rw [List.take_left]

lemma findSome?_skip_none (pre : List (List Char))
    (hpre : ∀ l ∈ pre, lineCapture l = none)
    (L : List Char) (post : List (List Char)) :
    (pre ++ L :: post).findSome? lineCapture = (L :: post).findSome? lineCapture := by
  induction pre with
  | nil => rfl
  | cons a t ih =>
    rw [List.cons_append, List.findSome?_cons, hpre a (List.mem_cons_self a t)]
    exact ih (fun l hl => hpre l (List.mem_cons_of_mem a hl))

/-! ## Theorems for the claims -/

/-- C3: `parse_msg` yields an engine identifier exactly for signals whose
interface is `org.freedesktop.IBus` and whose member is
`GlobalEngineChanged`, extracting the first positional string argument;
every other connection item is discarded and leaves the listener state,
including the engine store, unchanged. -/
theorem parse_msg_filter (ci : ConnectionItem) :
    (∀ e, parse_msg ci = some e ↔
      ∃ m, ci = .signal m ∧ m.interface = "org.freedesktop.IBus" ∧
        m.member = "GlobalEngineChanged" ∧ get1 m = some e) ∧
    (∀ id now st, parse_msg ci = none → listenerStep id now st ci = st) := by
  constructor
  · intro e
    constructor
    · intro h
      cases ci with
      | signal m =>
        simp only [parse_msg] at h
        split_ifs at h with h1 h2
        exact ⟨m, rfl, not_not.mp h1, not_not.mp h2, h⟩
      | nothing => simp [parse_msg] at h
      | methodCall m => simp [parse_msg] at h
      | methodReturn m => simp [parse_msg] at h
    · rintro ⟨m, rfl, h1, h2, h3⟩
      simp [parse_msg, h1, h2, h3]
  · intro id now st h
    simp [listenerStep, h]

/-- C3 witness: a matching signal yields its payload, and a signal on a
different interface leaves the listener state untouched. -/
theorem parse_msg_filter_witness :
    parse_msg (.signal ⟨"org.freedesktop.IBus", "GlobalEngineChanged",
      [.str "xkb:jp::jpn"]⟩) = some "xkb:jp::jpn" ∧
    listenerStep "b" 0 ⟨"xkb:us::eng", []⟩
      (.signal ⟨"org.example.Other", "GlobalEngineChanged", [.str "xkb:jp::jpn"]⟩) =
      ⟨"xkb:us::eng", []⟩ := by
  constructor
  · exact ((parse_msg_filter _).1 "xkb:jp::jpn").mpr ⟨_, rfl, rfl, rfl, rfl⟩
  · exact (parse_msg_filter _).2 "b" 0 _ (by decide)

/-- C4: processing a sequence of matching signal deliveries with payloads
`e1, ..., eN` in arrival order leaves the engine store holding the last
payload `eN`, whatever value it held before. -/
theorem runListener_latest (id : String) (st : ListenerState)
    (front : List String) (eN : String) :
    (runListener id st ((front ++ [eN]).map mkEngineSignal)).engine = eN := by
  induction front generalizing st with
  | nil =>
    simp [runListener, listenerStep, parse_msg_mkEngineSignal]
  | cons e t ih =>
    simp only [List.cons_append, List.map_cons, runListener, List.foldl_cons]
    exact ih _

/-- C5: in the listener's effect trace, every scheduler notification is
immediately preceded by the write of the corresponding engine value into
the store: the listener never notifies before completing the store
update, so the write is visible to any reader that observes the event. -/
theorem write_before_notify (id bid : String) (items : List ConnectionItem) (i : Nat)
    (h : (runTrace id items).get? i = some (.notify bid)) :
    bid = id ∧ 1 ≤ i ∧ ∃ e, (runTrace id items).get? (i - 1) = some (.write e) := by
  induction items generalizing i with
  | nil => simp [runTrace] at h
  | cons ci rest ih =>
    cases hp : parse_msg ci with
    | none =>
      have htr : runTrace id (ci :: rest) = runTrace id rest := by
        simp [runTrace, stepTrace, hp]
      rw [htr] at h ⊢
      exact ih i h
    | some e =>
      have htr : runTrace id (ci :: rest) =
          .write e :: .notify id :: runTrace id rest := by
        simp [runTrace, stepTrace, hp]
      rw [htr] at h ⊢
      match i with
      | 0 => simp at h
      | 1 =>
        simp at h
        exact ⟨h.symm, le_refl 1, e, rfl⟩
      | (m + 2) =>
        simp only [List.get?_cons_succ] at h
        obtain ⟨hbid, h1, e2, hw⟩ := ih m h
        obtain ⟨k, rfl⟩ : ∃ k, m = k + 1 := ⟨m - 1, by omega⟩
        refine ⟨hbid, by omega, e2, ?_⟩
        simpa [List.get?_cons_succ] using hw

/-- C5 witness: for a single matching delivery the notification sits at
index 1 of the trace and the write of the same payload at index 0. -/
theorem write_before_notify_witness :
    "b" = "b" ∧ 1 ≤ 1 ∧
      ∃ e, (runTrace "b" [mkEngineSignal "xkb:jp::jpn"]).get? (1 - 1) =
        some (.write e) :=
  write_before_notify "b" "b" [mkEngineSignal "xkb:jp::jpn"] 1 (by decide)

/-- C1: when the config-root variable holds `C`, the machine-id file
trims to `M`, the display variable is a colon followed by one digit, and
the discovery file `C/ibus/bus/M-unix-d` contains a (first matching,
unambiguous) line `IBUS_ADDRESS=<address>,guid=...`, `get_ibus_address`
succeeds and returns exactly `<address>`. -/
theorem get_ibus_address_resolves
    (env : Env) (fs : Fs) (C Mraw : String) (dc : Char)
    (addr g : List Char) (preLines postLines : List (List Char)) (content : String)
    (hx : env.xdg_config_home = some C)
    (hm : fs "/etc/machine-id" = some Mraw)
    (hd : env.display = some (String.mk [':', dc]))
    (hdigit : dc.isDigit = true)
    (hfile : fs (C ++ "/ibus/bus/" ++ trimStr Mraw ++ "-unix-" ++ String.mk [dc]) =
      some content)
    (hsplit : splitOnNl content.data =
      preLines ++ (keyChars ++ addr ++ guidChars ++ ('=' :: g)) :: postLines)
    (hpre : ∀ l ∈ preLines, lineCapture l = none)
    (huniq : ∀ j, j < (keyChars ++ addr ++ guidChars ++ ('=' :: g)).length + 1 →
      subAt guidChars (keyChars ++ addr ++ guidChars ++ ('=' :: g)) j = true →
      j = keyChars.length + addr.length) :
    get_ibus_address env fs = .ok (String.mk addr) := by
  have hdc : displayCapture (String.mk [':', dc]) = some (String.mk [dc]) := by
    simp [displayCapture, hdigit]
  have hac : addressCapture content = some (String.mk addr) := by
    unfold addressCapture
    rw [hsplit, findSome?_skip_none preLines hpre, List.findSome?_cons,
      lineCapture_eq _ _ huniq]
    rfl
  simp only [get_ibus_address, hx, hm, hd, hdc]
  rw [path_norm, hfile]
  simp only [hac]

/-- C1 witness: the example from the spec — a discovery file containing
`IBUS_ADDRESS=unix:abstract=/tmp/x,guid=abc` resolves to the address
`unix:abstract=/tmp/x`. -/
theorem get_ibus_address_resolves_witness :
    get_ibus_address envExample fsExample = .ok "unix:abstract=/tmp/x" := by
  have h := get_ibus_address_resolves envExample fsExample
    "/home/user/.config" "8cd241b9ab1d4c2029489cd2cbc4962a\n" '0'
    "unix:abstract=/tmp/x".data "abc".data [] []
    "IBUS_ADDRESS=unix:abstract=/tmp/x,guid=abc"
    (by rfl) (by decide) (by decide) (by decide) (by decide) (by decide)
    (by intro l hl; cases hl) (by decide)
  have hmk : String.mk "unix:abstract=/tmp/x".data = "unix:abstract=/tmp/x" := by decide
  rw [hmk] at h
  exact h

/-- C2: `get_ibus_address` fails with `MissingEnv` when the config-root
variable is absent, with `IoError` when the machine-id file is unreadable,
with `MissingEnv` when the display variable is absent, with
`MalformedInput` when the display variable is not a colon followed by
exactly one digit (in particular `":10"` is rejected), with `IoError`
when the composed discovery file is unreadable, with `MalformedInput`
when its contents hold no `IBUS_ADDRESS=...,guid` pattern — and succeeds
otherwise. -/
theorem get_ibus_address_error_kinds (env : Env) (fs : Fs) :
    (env.xdg_config_home = none → get_ibus_address env fs = .error .MissingEnv) ∧
    (∀ C, env.xdg_config_home = some C → fs "/etc/machine-id" = none →
      get_ibus_address env fs = .error .IoError) ∧
    (∀ C Mraw, env.xdg_config_home = some C → fs "/etc/machine-id" = some Mraw →
      env.display = none → get_ibus_address env fs = .error .MissingEnv) ∧
    (∀ C Mraw d, env.xdg_config_home = some C → fs "/etc/machine-id" = some Mraw →
      env.display = some d → displayCapture d = none →
      get_ibus_address env fs = .error .MalformedInput) ∧
    displayCapture ":10" = none ∧
    (∀ C Mraw d dn, env.xdg_config_home = some C → fs "/etc/machine-id" = some Mraw →
      env.display = some d → displayCapture d = some dn →
      fs (C ++ "/ibus/bus/" ++ trimStr Mraw ++ "-unix-" ++ dn) = none →
      get_ibus_address env fs = .error .IoError) ∧
    (∀ C Mraw d dn contents, env.xdg_config_home = some C →
      fs "/etc/machine-id" = some Mraw →
      env.display = some d → displayCapture d = some dn →
      fs (C ++ "/ibus/bus/" ++ trimStr Mraw ++ "-unix-" ++ dn) = some contents →
      addressCapture contents = none →
      get_ibus_address env fs = .error .MalformedInput) ∧
    (∀ C Mraw d dn contents a, env.xdg_config_home = some C →
      fs "/etc/machine-id" = some Mraw →
      env.display = some d → displayCapture d = some dn →
      fs (C ++ "/ibus/bus/" ++ trimStr Mraw ++ "-unix-" ++ dn) = some contents →
      addressCapture contents = some a →
      get_ibus_address env fs = .ok a) := by
  refine ⟨?_, ?_, ?_, ?_, by decide, ?_, ?_, ?_⟩
  · intro h
    simp [get_ibus_address, h]
  · intro C hx hm
    simp [get_ibus_address, hx, hm]
  · intro C Mraw hx hm hd
    simp [get_ibus_address, hx, hm, hd]
  · intro C Mraw d hx hm hd hdc
    simp [get_ibus_address, hx, hm, hd, hdc]
  · intro C Mraw d dn hx hm hd hdc hfs
    simp only [get_ibus_address, hx, hm, hd, hdc]
    rw [path_norm, hfs]
  · intro C Mraw d dn contents hx hm hd hdc hfs hac
    simp only [get_ibus_address, hx, hm, hd, hdc]
    rw [path_norm, hfs]
    simp only [hac]
  · intro C Mraw d dn contents a hx hm hd hdc hfs hac
    simp only [get_ibus_address, hx, hm, hd, hdc]
    rw [path_norm, hfs]
    simp only [hac]

/-- C2 witness: with no environment at all discovery fails with
`MissingEnv`, and the display value `":10"` is rejected as malformed. -/
theorem get_ibus_address_error_kinds_witness :
    get_ibus_address ⟨none, none⟩ (fun _ => none) = .error .MissingEnv ∧
    displayCapture ":10" = none := by
  constructor
  · exact (get_ibus_address_error_kinds ⟨none, none⟩ (fun _ => none)).1 rfl
  · exact (get_ibus_address_error_kinds ⟨none, none⟩ (fun _ => none)).2.2.2.2.1

/-- C6: construction extracts the third positional element of the initial
`GlobalEngine` query result and coerces it to text, using `"??"` only
when the coercion fails; the value seeds the engine store, so an `update`
before any signal shows the initial identifier, not the sentinel, when
the query returned a usable value; and any connection or query failure
makes construction fail outright. -/
theorem ibus_new_seeds (uuid : String) (ce : ConstructEnv) :
    (∀ addr es third s, get_ibus_address ce.env ce.fs = .ok addr →
      ce.connect_ok addr = true →
      ce.global_engine = some (.container es) →
      es[2]? = some third → as_str third = some s →
      ibus_new uuid ce = .ok ⟨uuid, "IBus", s⟩ ∧
      update true ⟨uuid, "IBus", s⟩ = (.ok none, ⟨uuid, s, s⟩)) ∧
    (∀ addr es third, get_ibus_address ce.env ce.fs = .ok addr →
      ce.connect_ok addr = true →
      ce.global_engine = some (.container es) →
      es[2]? = some third → as_str third = none →
      ibus_new uuid ce = .ok ⟨uuid, "IBus", "??"⟩) ∧
    (∀ addr, get_ibus_address ce.env ce.fs = .ok addr →
      ce.connect_ok addr = false → ibus_new uuid ce = .error .ConnectionError) ∧
    (∀ addr, get_ibus_address ce.env ce.fs = .ok addr →
      ce.connect_ok addr = true → ce.global_engine = none →
      ibus_new uuid ce = .error .QueryError) ∧
    (∀ e, get_ibus_address ce.env ce.fs = .error e →
      ibus_new uuid ce = .error e) := by
  refine ⟨?_, ?_, ?_, ?_, ?_⟩
  · intro addr es third s hga hc hq h2 hs
    constructor
    · simp [ibus_new, hga, hc, hq, as_iter, h2, hs]
    · rfl
  · intro addr es third hga hc hq h2 hs
    simp [ibus_new, hga, hc, hq, as_iter, h2, hs]
  · intro addr hga hc
    simp [ibus_new, hga, hc]
  · intro addr hga hc hq
    simp [ibus_new, hga, hc, hq]
  · intro e hga
    simp [ibus_new, hga]

/-- C6 witness: with the fixture environment the block is constructed
with engine `xkb:us::eng`, and the first `update` displays it. -/
theorem ibus_new_seeds_witness :
    ibus_new "id0" ceExample = .ok ⟨"id0", "IBus", "xkb:us::eng"⟩ ∧
    update true ⟨"id0", "IBus", "xkb:us::eng"⟩ =
      (.ok none, ⟨"id0", "xkb:us::eng", "xkb:us::eng"⟩) :=
  (ibus_new_seeds "id0" ceExample).1 "unix:abstract=/tmp/x"
    [.str "IBusEngineDesc", .container [], .str "xkb:us::eng"]
    (.str "xkb:us::eng") "xkb:us::eng"
    rfl rfl rfl rfl rfl

/-- C10: when the initial query result is not iterable, or has fewer than
three positional elements, construction fails with an error instead of
falling back to the sentinel; the sentinel appears only when a third
element exists but does not coerce to a string. -/
theorem ibus_new_strict (uuid : String) (ce : ConstructEnv) (addr : String)
    (hga : get_ibus_address ce.env ce.fs = .ok addr)
    (hc : ce.connect_ok addr = true) :
    (∀ v, ce.global_engine = some v → as_iter v = none →
      ibus_new uuid ce = .error .QueryError) ∧
    (∀ es, ce.global_engine = some (.container es) → es.length ≤ 2 →
      ibus_new uuid ce = .error .QueryError) ∧
    (∀ es third, ce.global_engine = some (.container es) →
      es[2]? = some third → as_str third = none →
      ibus_new uuid ce = .ok ⟨uuid, "IBus", "??"⟩) := by
  refine ⟨?_, ?_, ?_⟩
  · intro v hq hiter
    simp [ibus_new, hga, hc, hq, hiter]
  · intro es hq hlen
    simp [ibus_new, hga, hc, hq, as_iter, List.getElem?_eq_none hlen]
  · intro es third hq h2 hs
    simp [ibus_new, hga, hc, hq, as_iter, h2, hs]

/-- C10 witness: a query result whose third element is a non-string
yields the sentinel engine `"??"`, while a two-element result makes
construction fail. -/
theorem ibus_new_strict_witness :
    ibus_new "id0" ceSentinel = .ok ⟨"id0", "IBus", "??"⟩ ∧
    ibus_new "id0"
      ⟨envExample, fsExample, fun _ => true, some (.container [.str "a", .other])⟩ =
      .error .QueryError := by
  constructor
  · exact (ibus_new_strict "id0" ceSentinel "unix:abstract=/tmp/x"
      rfl rfl).2.2
      [.str "IBusEngineDesc", .container [], .container []]
      (.container []) rfl rfl rfl
  · exact (ibus_new_strict "id0"
      ⟨envExample, fsExample, fun _ => true, some (.container [.str "a", .other])⟩
      "unix:abstract=/tmp/x" rfl rfl).2.1
      [.str "a", .other] rfl (by decide)

/-- C7: a successful `update` sets the display text to a snapshot of the
engine store and reports no re-poll delay; `update` fails only with the
lock error, and then the block, its display text included, is unchanged. -/
theorem update_behavior (b : IBus) (lock_ok : Bool) :
    update true b = (.ok none, { b with text := b.engine }) ∧
    update false b = (.error .LockError, b) ∧
    ((update lock_ok b).1 = .ok none ∨ (update lock_ok b).1 = .error .LockError) := by
  refine ⟨rfl, rfl, ?_⟩
  cases lock_ok <;> simp [update]

/-- C8: none of the facade operations writes the engine store: `update`
leaves it unchanged whatever the lock outcome, `click` succeeds and
returns the block with identifier, text and engine intact, and `view`
only reads the current text. -/
theorem facade_frame (b : IBus) (lock_ok : Bool) (ev : I3BarEvent) :
    (update lock_ok b).2.engine = b.engine ∧
    click b ev = (.ok (), b) ∧
    view b = [b.text] := by
  refine ⟨?_, rfl, rfl⟩
  cases lock_ok <;> simp [update]

end Ibus
